import Mathlib

/-!
Verification of the REST catalog client resolution logic
(`pypaimon/catalog/rest/rest_catalog.py`).

The option mappings of the client are Python `dict`s over strings; we embed
them as association lists with Python-dict update semantics (an assignment
`d[k] = v` replaces the first binding of `k` in place, or appends a new
binding at the end). Lookup takes the first binding, matching `d[k]`.
-/

/-- Association-list embedding of a Python `Dict[str, str]`. -/
abbrev OptionsMap := List (String × String)

/-- Python `d[k] = v`: replace the first binding of `k`, else append. -/
def OptionsMap.store : OptionsMap → String → String → OptionsMap
  | [], k, v => [(k, v)]
  | p :: rest, k, v =>
    if p.1 = k then (k, v) :: rest else p :: OptionsMap.store rest k v

/-- Python `d.get(k)`: value of the first binding of `k`, if any. -/
def OptionsMap.getVal : OptionsMap → String → Option String
  | [], _ => none
  | p :: rest, k => if p.1 = k then some p.2 else OptionsMap.getVal rest k

/-- Python `del d[k]` / `d.pop(k, None)`: drop every binding of `k`. -/
def OptionsMap.dropKey : OptionsMap → String → OptionsMap
  | [], _ => []
  | p :: rest, k =>
    if p.1 = k then OptionsMap.dropKey rest k else p :: OptionsMap.dropKey rest k

/-- Value of the last binding of `k`, if any: the value that survives when the
pairs are stored into a dict left to right. -/
def OptionsMap.lastVal : OptionsMap → String → Option String
  | [], _ => none
  | p :: rest, k =>
    match OptionsMap.lastVal rest k with
    | some v => some v
    | none => if p.1 = k then some p.2 else none

/-- Store every pair of `pairs` into `m`, left to right (the Python loop
`for k, v in pairs: m[k] = v`). -/
def OptionsMap.storeAll (pairs : OptionsMap) (m : OptionsMap) : OptionsMap :=
  List.foldl (fun acc p => OptionsMap.store acc p.1 p.2) m pairs

/-- Modelled from the spec: `Identifier` (class `pypaimon.common.identifier`,
not under src/) represents a `database.table[.branch]` reference; the branch
component is absent unless explicitly encoded in the qualified name. -/
structure Identifier where
  database : String
  table : String
  branch : Option String
deriving DecidableEq

def Identifier.get_database_name (i : Identifier) : String := i.database

def Identifier.get_table_name (i : Identifier) : String := i.table

def Identifier.get_branch_name (i : Identifier) : Option String := i.branch

/-- Split a character list on the dot separator. -/
def splitDotAux : List Char → List Char → List (List Char)
  | [], acc => [acc.reverse]
  | c :: rest, acc =>
    if c = '.' then acc.reverse :: splitDotAux rest [] else splitDotAux rest (c :: acc)

/-- Modelled from the spec: `Identifier.create(db, object_name)` (not under
src/) builds an identifier from a database name and an object name, parsing the
optional branch component encoded in the object name (`table[.branch]`). -/
def Identifier.create (db object_name : String) : Identifier :=
  match splitDotAux object_name.toList [] with
  | [t] => { database := db, table := String.mk t, branch := none }
  | [t, b] => { database := db, table := String.mk t, branch := some (String.mk b) }
  | _ => { database := db, table := object_name, branch := none }

/-- Modelled from the spec: `Schema` (class `pypaimon.schema`, not under src/)
holds fields, partition keys, primary keys, an options mapping and a comment;
it is a plain data object. Field contents are opaque to the catalog client, so
fields are embedded as strings. -/
structure Schema where
  fields : List String
  partition_keys : List String
  primary_keys : List String
  options : OptionsMap
  comment : Option String
deriving DecidableEq

/-- Modelled from the spec: `Schema.copy(options)` (not under src/) produces a
new `Schema` with the replaced options map, all other fields shared by value. -/
def Schema.copy (s : Schema) (options : OptionsMap) : Schema :=
  { s with options := options }

/-- Modelled from the spec: `GetTableResponse` (module
`pypaimon.api.api_response`, not under src/) carries the schema, storage path,
external flag, stable id and name of the table, plus attachable
audit/provenance key-value pairs. -/
structure GetTableResponse where
  name : String
  path : String
  is_external : Bool
  id : String
  schema : Schema
  audit : OptionsMap
deriving DecidableEq

def GetTableResponse.get_schema (r : GetTableResponse) : Schema := r.schema

def GetTableResponse.get_path (r : GetTableResponse) : String := r.path

def GetTableResponse.get_name (r : GetTableResponse) : String := r.name

def GetTableResponse.get_is_external (r : GetTableResponse) : Bool := r.is_external

def GetTableResponse.get_id (r : GetTableResponse) : String := r.id

/-- Modelled from the spec: `put_audit_options_to(options)` (not under src/)
merges the audit/provenance pairs of the response into the given options
mapping, overwriting any colliding keys. -/
def GetTableResponse.put_audit_options_to (r : GetTableResponse) (options : OptionsMap) :
    OptionsMap :=
  OptionsMap.storeAll r.audit options

/-- Modelled from the spec: `GetDatabaseResponse` (module
`pypaimon.api.api_response`, not under src/) carries the database options, the
server-reported location, and attachable audit/provenance pairs. -/
structure GetDatabaseResponse where
  location : String
  options : OptionsMap
  audit : OptionsMap
deriving DecidableEq

/-- Modelled from the spec: the database-response variant of
`put_audit_options_to` (not under src/). -/
def GetDatabaseResponse.put_audit_options_to (r : GetDatabaseResponse) (options : OptionsMap) :
    OptionsMap :=
  OptionsMap.storeAll r.audit options

/-- `TableMetadata` data object (class `pypaimon.catalog.table_metadata`, not
under src/; shape fixed by its construction at `rest_catalog.py` lines
113-117). -/
structure TableMetadata where
  schema : Schema
  is_external : Bool
  uuid : String
deriving DecidableEq

/-- Modelled from the spec: `Database` (not under src/) is a name plus a
properties mapping. -/
structure Database where
  name : String
  properties : OptionsMap
deriving DecidableEq

/-- Modelled from the spec: the reserved options key for the storage path
(`CoreOptions.PATH`, not under src/). -/
def CoreOptions.PATH : String := "path"

/-- Modelled from the spec: the reserved options key for the branch name
(`CoreOptions.BRANCH`, not under src/). -/
def CoreOptions.BRANCH : String := "branch"

/-- Modelled from the spec: the reserved property key for the database
location (`Catalog.DB_LOCATION_PROP`, not under src/). -/
def Catalog.DB_LOCATION_PROP : String := "location"

/-- Python-level errors raised by the client. `valueError` embeds the builtin
`ValueError`; `unsupportedOperationError` stands for the spec's
`UnsupportedOperationError` taxonomy entry, so that the two can be told
apart. -/
inductive PyError where
  | valueError (msg : String)
  | unsupportedOperationError (msg : String)
deriving DecidableEq

/-- Is this error the spec taxonomy's `UnsupportedOperationError`? -/
def PyError.isUnsupportedOperationError : PyError → Bool
  | .unsupportedOperationError _ => true
  | _ => false

/-- A call issued to the remote metadata service (the `RESTApi`
collaborator). Operations are embedded as returning, alongside their result,
the list of remote calls they issue. -/
inductive RemoteCall where
  | create_database_call (name : String) (properties : OptionsMap)
  | get_table_call (identifier : Identifier)
deriving DecidableEq

/-- Token-scoped file accessor (`RESTTokenFileIO`, constructed at
`rest_catalog.py` line 123 with token and expiry both `None`). -/
structure RestTokenFileIo where
  identifier : Identifier
  path : String
  token : Option String
  token_expiration : Option Nat
deriving DecidableEq

/-- `RESTCatalog.create_database` (lines 51-52): forwards `(name, properties)`
to the remote service; the `ignore_if_exists` flag does not occur in the
body. The result is the single remote call issued. -/
def RESTCatalog.create_database (name : String) (ignore_if_exists : Bool)
    (properties : OptionsMap) : List RemoteCall :=
  [RemoteCall.create_database_call name properties]

/-- `RESTCatalog.get_database` (lines 54-60), with the remote response as an
explicit input: aliases the response options, stores the server-reported
location under the reserved location key, then merges the audit pairs. -/
def RESTCatalog.get_database (name : String) (response : GetDatabaseResponse) : Database :=
  let options := response.options
  let options := OptionsMap.store options Catalog.DB_LOCATION_PROP response.location
  let options := response.put_audit_options_to options
  { name := name, properties := options }

/-- `RESTCatalog.create_table` (lines 96-97): unconditionally raises
`ValueError("Not implemented")`; no remote call is issued. -/
def RESTCatalog.create_table (identifier : Identifier) (schema : Schema)
    (ignore_if_exists : Bool) : Except PyError Unit × List RemoteCall :=
  (Except.error (PyError.valueError "Not implemented"), [])

/-- `RESTCatalog.to_table_metadata` (lines 103-117): copy the schema options,
store the response path under the reserved path key, merge the audit pairs,
then inject the branch parsed from the response name, and wrap the result in a
`TableMetadata` whose schema is a copy with the replaced options. -/
def RESTCatalog.to_table_metadata (db : String) (response : GetTableResponse) : TableMetadata :=
  let schema := response.get_schema
  let options := schema.options
  let options := OptionsMap.store options CoreOptions.PATH response.get_path
  let options := response.put_audit_options_to options
  let identifier := Identifier.create db response.get_name
  let options :=
    match identifier.get_branch_name with
    | some b => OptionsMap.store options CoreOptions.BRANCH b
    | none => options
  { schema := schema.copy options
    is_external := response.get_is_external
    uuid := response.get_id }

/-- `RESTCatalog.load_table_metadata` (lines 99-101), with the remote service
embedded as the function `api` from identifiers to responses: fetch the raw
response and resolve it against the database name of the identifier. -/
def RESTCatalog.load_table_metadata (api : Identifier → GetTableResponse)
    (identifier : Identifier) : TableMetadata :=
  RESTCatalog.to_table_metadata identifier.get_database_name (api identifier)

/-- `RESTCatalog.file_io_for_data` (lines 122-123): a token-scoped accessor
bound to the identifier and path when the data-token flag is on, the `None`
sentinel otherwise. -/
def RESTCatalog.file_io_for_data (data_token_enabled : Bool) (path : String)
    (identifier : Identifier) : Option RestTokenFileIo :=
  if data_token_enabled then
    some { identifier := identifier, path := path, token := none, token_expiration := none }
  else none

/-- A property change: upsert or removal (class
`pypaimon.catalog.property_change`, not under src/). -/
inductive PropertyChange where
  | set_property (key value : String)
  | remove_property (key : String)
deriving DecidableEq

/-- Append `k` to the removal list unless already present. -/
def RemoveKeys.add (ks : List String) (k : String) : List String :=
  if k ∈ ks then ks else ks ++ [k]

/-- One step of the property-change reduction: a later change to a key
overrides an earlier one regardless of variant, keeping the set map and the
removal keys disjoint. -/
def PropertyChange.reduce_step (acc : OptionsMap × List String) (c : PropertyChange) :
    OptionsMap × List String :=
  match c with
  | .set_property k v => (OptionsMap.store acc.1 k v, List.filter (fun x => x ≠ k) acc.2)
  | .remove_property k => (OptionsMap.dropKey acc.1 k, RemoveKeys.add acc.2 k)

/-- Modelled from the spec:
`PropertyChange.get_set_properties_to_remove_keys(changes)` (not under src/;
only its caller `alter_database`, lines 65-67, is) reduces an ordered sequence
of changes by a single left-to-right fold into `(set_map, remove_keys)` with
`remove_keys` disjoint from the keys of `set_map`. -/
def PropertyChange.get_set_properties_to_remove_keys (changes : List PropertyChange) :
    OptionsMap × List String :=
  List.foldl PropertyChange.reduce_step ([], []) changes

/-! Dictionary lemmas. -/

/-- Looking up a key right after storing it yields the stored value. -/
theorem OptionsMap.getVal_store_self (m : OptionsMap) (k v : String) :
    OptionsMap.getVal (OptionsMap.store m k v) k = some v := by
  induction m with
  | nil => simp [OptionsMap.store, OptionsMap.getVal]
  | cons p rest ih =>
    by_cases h : p.1 = k
    · simp [OptionsMap.store, h, OptionsMap.getVal]
    · simp [OptionsMap.store, h, OptionsMap.getVal, ih]

/-- Storing one key leaves the lookup of every other key unchanged. -/
theorem OptionsMap.getVal_store_ne (m : OptionsMap) (k v k2 : String) (hne : k2 ≠ k) :
    OptionsMap.getVal (OptionsMap.store m k v) k2 = OptionsMap.getVal m k2 := by
  induction m with
  | nil =>
    simp only [OptionsMap.store, OptionsMap.getVal]
    rw [if_neg (fun h => hne h.symm)]
  | cons p rest ih =>
    by_cases h : p.1 = k
    · simp only [OptionsMap.store, if_pos h, OptionsMap.getVal]
      rw [if_neg (fun h2 => hne h2.symm), if_neg (fun h2 => hne ((h.symm.trans h2).symm))]
    · simp only [OptionsMap.store, if_neg h, OptionsMap.getVal, ih]

/-- Dropping a key makes its lookup fail. -/
theorem OptionsMap.getVal_dropKey_self (m : OptionsMap) (k : String) :
    OptionsMap.getVal (OptionsMap.dropKey m k) k = none := by
  induction m with
  | nil => simp [OptionsMap.dropKey, OptionsMap.getVal]
  | cons p rest ih =>
    by_cases h : p.1 = k
    · simp [OptionsMap.dropKey, h, ih]
    · simp [OptionsMap.dropKey, h, OptionsMap.getVal, ih]

/-- Dropping one key leaves the lookup of every other key unchanged. -/
theorem OptionsMap.getVal_dropKey_ne (m : OptionsMap) (k k2 : String) (hne : k2 ≠ k) :
    OptionsMap.getVal (OptionsMap.dropKey m k) k2 = OptionsMap.getVal m k2 := by
  induction m with
  | nil => simp [OptionsMap.dropKey]
  | cons p rest ih =>
    by_cases h : p.1 = k
    · simp only [OptionsMap.dropKey, if_pos h, OptionsMap.getVal, ih]
      rw [if_neg (fun h2 => hne ((h.symm.trans h2).symm))]
    · simp only [OptionsMap.dropKey, if_neg h, OptionsMap.getVal, ih]

/-- Lookup after storing a batch of pairs: the last binding of the key in the
batch wins; keys not bound in the batch keep their previous value. -/
theorem OptionsMap.getVal_storeAll (pairs m : OptionsMap) (k : String) :
    OptionsMap.getVal (OptionsMap.storeAll pairs m) k =
      match OptionsMap.lastVal pairs k with
      | some v => some v
      | none => OptionsMap.getVal m k := by
  induction pairs generalizing m with
  | nil => simp [OptionsMap.storeAll, OptionsMap.lastVal]
  | cons p rest ih =>
    have hstep : OptionsMap.storeAll (p :: rest) m =
        OptionsMap.storeAll rest (OptionsMap.store m p.1 p.2) := rfl
    rw [hstep, ih]
    cases hlv : OptionsMap.lastVal rest k with
    | some v => simp [OptionsMap.lastVal, hlv]
    | none =>
      simp only [OptionsMap.lastVal, hlv]
      by_cases hpk : p.1 = k
      · subst hpk
        simp [OptionsMap.getVal_store_self]
      · rw [OptionsMap.getVal_store_ne _ _ _ _ (fun h => hpk h.symm)]
        simp [hpk]

/-! Normal forms of the resolution functions. -/

/-- The options of a resolved `TableMetadata`, written out: declared schema
options, then the path injection, then the audit merge, then the branch
injection decided by the identifier parsed from the response name. -/
theorem to_table_metadata_options (db : String) (r : GetTableResponse) :
    (RESTCatalog.to_table_metadata db r).schema.options =
      match (Identifier.create db r.get_name).get_branch_name with
      | some b =>
          OptionsMap.store
            (OptionsMap.storeAll r.audit
              (OptionsMap.store r.schema.options CoreOptions.PATH r.path))
            CoreOptions.BRANCH b
      | none =>
          OptionsMap.storeAll r.audit
            (OptionsMap.store r.schema.options CoreOptions.PATH r.path) := by
  cases hbr : (Identifier.create db r.get_name).get_branch_name with
  | some b =>
    simp [RESTCatalog.to_table_metadata, Schema.copy, hbr,
      GetTableResponse.put_audit_options_to, GetTableResponse.get_schema,
      GetTableResponse.get_path]
  | none =>
    simp [RESTCatalog.to_table_metadata, Schema.copy, hbr,
      GetTableResponse.put_audit_options_to, GetTableResponse.get_schema,
      GetTableResponse.get_path]

/-- The properties of a resolved `Database`, written out: server options, then
the unconditional location injection, then the audit merge. -/
theorem get_database_properties (name : String) (r : GetDatabaseResponse) :
    (RESTCatalog.get_database name r).properties =
      OptionsMap.storeAll r.audit
        (OptionsMap.store r.options Catalog.DB_LOCATION_PROP r.location) := rfl

/-! Concrete sample inputs used by counterexamples and witnesses. -/

/-- A schema with no declared options. -/
def sampleSchema : Schema :=
  { fields := ["f0"], partition_keys := [], primary_keys := [], options := [],
    comment := none }

/-- An identifier with no branch component. -/
def sampleIdentifier : Identifier :=
  { database := "db", table := "t", branch := none }

/-- An identifier whose branch component is set. -/
def branchedIdentifier : Identifier :=
  { database := "db", table := "t", branch := some "branch1" }

/-- A response whose name carries no branch, with one audit pair. -/
def sampleResponse : GetTableResponse :=
  { name := "t", path := "/warehouse/db.db/t", is_external := false, id := "uuid-1",
    schema := sampleSchema, audit := [("owner", "alice")] }

/-- A response whose name encodes branch `b1` and whose audit pairs bind the
reserved branch key. -/
def branchCollisionResponse : GetTableResponse :=
  { name := "t.b1", path := "/warehouse/db.db/t", is_external := false, id := "uuid-2",
    schema := sampleSchema, audit := [(CoreOptions.BRANCH, "auditvalue")] }

/-- A schema that declares the reserved branch key among its options. -/
def declaredBranchSchema : Schema :=
  { fields := ["f0"], partition_keys := [], primary_keys := [],
    options := [(CoreOptions.BRANCH, "declared")], comment := none }

/-- A remote service answering every fetch with `sampleResponse`. -/
def plainApi : Identifier → GetTableResponse := fun _ => sampleResponse

/-- A remote service whose response name encodes branch `b1`. -/
def branchNameApi : Identifier → GetTableResponse := fun _ => branchCollisionResponse

/-- A remote service whose response schema declares the branch key. -/
def declaredBranchApi : Identifier → GetTableResponse := fun _ =>
  { name := "t", path := "/p", is_external := false, id := "uuid-3",
    schema := declaredBranchSchema, audit := [] }

/-- A remote service whose response audit pairs bind the branch key while the
response name carries no branch. -/
def auditBranchApi : Identifier → GetTableResponse := fun _ =>
  { name := "t", path := "/p", is_external := false, id := "uuid-4",
    schema := sampleSchema, audit := [(CoreOptions.BRANCH, "auditvalue")] }

/-- The error raised by a fallible operation, if it raised one. -/
def raisedError : Except PyError Unit → Option PyError
  | Except.error e => some e
  | Except.ok _ => none

/-! Claim theorems. -/

/-- Claim C3 counterexample: at a concrete input, `create_table` raises the
builtin `ValueError("Not implemented")`, which is not the
`UnsupportedOperationError` of the spec's error taxonomy. -/
theorem C3_counterexample :
    raisedError (RESTCatalog.create_table sampleIdentifier sampleSchema true).1 =
      some (PyError.valueError "Not implemented") ∧
    Option.map PyError.isUnsupportedOperationError
        (raisedError (RESTCatalog.create_table sampleIdentifier sampleSchema true).1) =
      some false := by
  exact ⟨rfl, rfl⟩

/-- Claim C3 (amended): for every input, `create_table` fails with
`ValueError("Not implemented")` and issues no remote call; it never silently
no-ops. -/
theorem C3_create_table_always_fails :
    ∀ (identifier : Identifier) (schema : Schema) (ignore_if_exists : Bool),
      RESTCatalog.create_table identifier schema ignore_if_exists =
        (Except.error (PyError.valueError "Not implemented"), []) := by
  intro identifier schema ignore_if_exists
  rfl

/-- Claim C4: with the data-token flag false, the file-access resolver returns
the `None` sentinel for every path and identifier; with the flag true it
returns a non-null accessor bound to exactly that identifier and path, with no
token fetched eagerly (both token slots are `None`); there is no third
state. -/
theorem C4_token_gating :
    (∀ (path : String) (identifier : Identifier),
      RESTCatalog.file_io_for_data false path identifier = none) ∧
    (∀ (path : String) (identifier : Identifier),
      RESTCatalog.file_io_for_data true path identifier =
        some { identifier := identifier, path := path, token := none,
               token_expiration := none }) := by
  constructor
  · intro path identifier
    rfl
  · intro path identifier
    rfl

/-- Claim C5: the resolution of a remote response into `TableMetadata` is a
deterministic function of the database name and the response: two equal
responses resolve to option-for-option identical metadata. -/
theorem C5_resolution_deterministic :
    ∀ (db : String) (r1 r2 : GetTableResponse), r1 = r2 →
      (RESTCatalog.to_table_metadata db r1).schema.options =
          (RESTCatalog.to_table_metadata db r2).schema.options ∧
        RESTCatalog.to_table_metadata db r1 = RESTCatalog.to_table_metadata db r2 := by
  intro db r1 r2 h
  subst h
  exact ⟨rfl, rfl⟩

/-- Claim C5 witness: the determinism theorem applied at a concrete database
name and response. -/
theorem C5_witness :
    (RESTCatalog.to_table_metadata "db" sampleResponse).schema.options =
        (RESTCatalog.to_table_metadata "db" sampleResponse).schema.options ∧
      RESTCatalog.to_table_metadata "db" sampleResponse =
        RESTCatalog.to_table_metadata "db" sampleResponse :=
  C5_resolution_deterministic "db" sampleResponse sampleResponse rfl

/-- Claim C8: resolution never mutates the fetched schema: the metadata's
schema is a copy of the response schema with only the options map replaced,
every other schema field preserved; in this functional embedding the overlay
acts on a copy of the declared options (`dict(schema.options)`), so the
response schema itself is left exactly as fetched. -/
theorem C8_schema_not_mutated :
    ∀ (db : String) (r : GetTableResponse),
      (RESTCatalog.to_table_metadata db r).schema.fields = r.get_schema.fields ∧
      (RESTCatalog.to_table_metadata db r).schema.partition_keys =
          r.get_schema.partition_keys ∧
      (RESTCatalog.to_table_metadata db r).schema.primary_keys =
          r.get_schema.primary_keys ∧
      (RESTCatalog.to_table_metadata db r).schema.comment = r.get_schema.comment ∧
      (RESTCatalog.to_table_metadata db r).schema =
        r.get_schema.copy (RESTCatalog.to_table_metadata db r).schema.options := by
  intro db r
  exact ⟨rfl, rfl, rfl, rfl, rfl⟩

/-- Claim C10: `create_database` never consults `ignore_if_exists`: for every
name and properties, the flag values true and false issue the identical remote
call and produce the same result. -/
theorem C10_create_database_flag_independent :
    ∀ (name : String) (properties : OptionsMap),
      RESTCatalog.create_database name true properties =
        RESTCatalog.create_database name false properties := by
  intro name properties
  rfl

/-- The reserved branch key differs from the reserved path key. -/
theorem branch_key_ne_path_key : CoreOptions.BRANCH ≠ CoreOptions.PATH := by decide

/-- Claim C1 counterexample: with a response whose name encodes branch `b1`
and whose audit pairs bind the reserved branch key to `auditvalue`, the final
options hold the injected branch value, not the audit value: the branch
injection runs after the audit merge and overwrites it. -/
theorem C1_counterexample :
    OptionsMap.getVal
        (RESTCatalog.to_table_metadata "db" branchCollisionResponse).schema.options
        CoreOptions.BRANCH = some "b1" ∧
      OptionsMap.lastVal branchCollisionResponse.audit CoreOptions.BRANCH =
        some "auditvalue" ∧
      (some "b1" : Option String) ≠ some "auditvalue" := by
  refine ⟨by decide, by decide, by decide⟩

/-- Claim C1 (amended): audit pairs are merged after the declared schema
options and the computed path, so for any audit key the final table options
hold the audit value, unless the key is the reserved branch key and the
response name carries a branch, in which case the later branch injection
overwrites it; in `get_database` the audit pairs are applied last outright and
always win. -/
theorem C1_audit_precedence :
    (∀ (db : String) (r : GetTableResponse) (k v : String),
      OptionsMap.lastVal r.audit k = some v →
      ((Identifier.create db r.get_name).get_branch_name = none ∨
        k ≠ CoreOptions.BRANCH) →
      OptionsMap.getVal (RESTCatalog.to_table_metadata db r).schema.options k =
        some v) ∧
    (∀ (name : String) (r : GetDatabaseResponse) (k v : String),
      OptionsMap.lastVal r.audit k = some v →
      OptionsMap.getVal (RESTCatalog.get_database name r).properties k = some v) := by
  constructor
  · intro db r k v hlast hside
    rw [to_table_metadata_options]
    cases hbr : (Identifier.create db r.get_name).get_branch_name with
    | none =>
      have h2 : OptionsMap.getVal
          (OptionsMap.storeAll r.audit
            (OptionsMap.store r.schema.options CoreOptions.PATH r.path)) k = some v := by
        rw [OptionsMap.getVal_storeAll, hlast]
      exact h2
    | some b =>
      rcases hside with h | h
      · rw [hbr] at h
        exact Option.noConfusion h
      · have h2 : OptionsMap.getVal
            (OptionsMap.store
              (OptionsMap.storeAll r.audit
                (OptionsMap.store r.schema.options CoreOptions.PATH r.path))
              CoreOptions.BRANCH b) k = some v := by
          rw [OptionsMap.getVal_store_ne _ _ _ _ h, OptionsMap.getVal_storeAll, hlast]
        exact h2
  · intro name r k v hlast
    have h2 : OptionsMap.getVal
        (OptionsMap.storeAll r.audit
          (OptionsMap.store r.options Catalog.DB_LOCATION_PROP r.location)) k =
        some v := by
      rw [OptionsMap.getVal_storeAll, hlast]
    rw [get_database_properties]
    exact h2

/-- Claim C1 witness: the amended precedence theorem applied at a concrete
table response whose audit pairs bind the key `owner`. -/
theorem C1_witness :
    OptionsMap.getVal
        (RESTCatalog.to_table_metadata "db" sampleResponse).schema.options "owner" =
      some "alice" :=
  C1_audit_precedence.1 "db" sampleResponse "owner" "alice" (by decide)
    (Or.inl (by decide))

/-- Claim C2 counterexample: branch injection is not driven by the caller's
identifier. With a remote whose response name is plain `t`, loading under the
branched identifier `db.t.branch1` yields no branch option; conversely, with a
response schema (or response audit pairs) binding the reserved branch key,
loading under a branch-free identifier still shows the branch key. -/
theorem C2_counterexample :
    OptionsMap.getVal
        (RESTCatalog.load_table_metadata plainApi branchedIdentifier).schema.options
        CoreOptions.BRANCH = none ∧
      (none : Option String) ≠ some "branch1" ∧
      OptionsMap.getVal
        (RESTCatalog.load_table_metadata declaredBranchApi
          sampleIdentifier).schema.options CoreOptions.BRANCH = some "declared" ∧
      OptionsMap.getVal
        (RESTCatalog.load_table_metadata auditBranchApi
          sampleIdentifier).schema.options CoreOptions.BRANCH = some "auditvalue" := by
  refine ⟨by decide, by decide, by decide, by decide⟩

/-- Claim C2 (amended): branch injection is decided by the identifier parsed
from the database name and the response's name, not by the caller's
identifier: whenever that parsed identifier carries branch `b`, the loaded
options hold `b` under the reserved branch key; and when it carries no branch,
the branch key is absent provided neither the declared schema options nor the
audit pairs bind it. -/
theorem C2_branch_injection :
    (∀ (api : Identifier → GetTableResponse) (identifier : Identifier) (b : String),
      (Identifier.create identifier.get_database_name
          (api identifier).get_name).get_branch_name = some b →
      OptionsMap.getVal
          (RESTCatalog.load_table_metadata api identifier).schema.options
          CoreOptions.BRANCH = some b) ∧
    (∀ (api : Identifier → GetTableResponse) (identifier : Identifier),
      (Identifier.create identifier.get_database_name
          (api identifier).get_name).get_branch_name = none →
      OptionsMap.getVal (api identifier).schema.options CoreOptions.BRANCH = none →
      OptionsMap.lastVal (api identifier).audit CoreOptions.BRANCH = none →
      OptionsMap.getVal
          (RESTCatalog.load_table_metadata api identifier).schema.options
          CoreOptions.BRANCH = none) := by
  constructor
  · intro api identifier b hbr
    show OptionsMap.getVal
        (RESTCatalog.to_table_metadata identifier.get_database_name
          (api identifier)).schema.options CoreOptions.BRANCH = some b
    rw [to_table_metadata_options, hbr]
    exact OptionsMap.getVal_store_self _ _ _
  · intro api identifier hbr hdecl haud
    show OptionsMap.getVal
        (RESTCatalog.to_table_metadata identifier.get_database_name
          (api identifier)).schema.options CoreOptions.BRANCH = none
    rw [to_table_metadata_options, hbr]
    have h2 : OptionsMap.getVal
        (OptionsMap.storeAll (api identifier).audit
          (OptionsMap.store (api identifier).schema.options CoreOptions.PATH
            (api identifier).path)) CoreOptions.BRANCH = none := by
      rw [OptionsMap.getVal_storeAll, haud,
        OptionsMap.getVal_store_ne _ _ _ _ branch_key_ne_path_key]
      exact hdecl
    exact h2

/-- Claim C2 witness: the amended injection theorem applied to a remote whose
response name encodes branch `b1`. -/
theorem C2_witness :
    OptionsMap.getVal
        (RESTCatalog.load_table_metadata branchNameApi sampleIdentifier).schema.options
        CoreOptions.BRANCH = some "b1" :=
  C2_branch_injection.1 branchNameApi sampleIdentifier "b1" (by decide)

/-- Claim C9: branch injection is decided by the identifier built from the
database name and the name carried in the remote response: two loads through a
remote giving equal responses for identifiers sharing a database name resolve
identically whatever their branch components, and whenever the identifier
parsed from the response name carries branch `b`, the resolved options hold
`b` under the reserved branch key. -/
theorem C9_branch_from_response_name :
    (∀ (api : Identifier → GetTableResponse) (id1 id2 : Identifier),
      id1.get_database_name = id2.get_database_name →
      api id1 = api id2 →
      RESTCatalog.load_table_metadata api id1 =
        RESTCatalog.load_table_metadata api id2) ∧
    (∀ (db : String) (r : GetTableResponse) (b : String),
      (Identifier.create db r.get_name).get_branch_name = some b →
      OptionsMap.getVal (RESTCatalog.to_table_metadata db r).schema.options
          CoreOptions.BRANCH = some b) := by
  constructor
  · intro api id1 id2 hdb hresp
    unfold RESTCatalog.load_table_metadata
    rw [hdb, hresp]
  · intro db r b hbr
    rw [to_table_metadata_options, hbr]
    exact OptionsMap.getVal_store_self _ _ _

/-- Claim C9 witness: the theorem applied to a constant remote and two
identifiers differing only in their branch component. -/
theorem C9_witness :
    RESTCatalog.load_table_metadata plainApi sampleIdentifier =
      RESTCatalog.load_table_metadata plainApi branchedIdentifier :=
  C9_branch_from_response_name.1 plainApi sampleIdentifier branchedIdentifier rfl rfl

/-- A database response whose server-returned options already bind the
reserved location key, differing from the server-reported location. -/
def locationResponse : GetDatabaseResponse :=
  { location := "/new/location",
    options := [(Catalog.DB_LOCATION_PROP, "/old/location")], audit := [] }

/-- Claim C6 counterexample: a location already present in the server-returned
options is not preserved: `get_database` stores the server-reported location
unconditionally, overwriting the existing value. -/
theorem C6_counterexample :
    OptionsMap.getVal (RESTCatalog.get_database "db" locationResponse).properties
        Catalog.DB_LOCATION_PROP = some "/new/location" ∧
      (some "/new/location" : Option String) ≠ some "/old/location" := by
  refine ⟨by decide, by decide⟩

/-- Claim C6 (amended): after `get_database` the reserved location key is
always present; the server-reported location is injected unconditionally,
overwriting any value already present in the server-returned options, and when
no audit pair binds the location key the final value is exactly the
server-reported location. -/
theorem C6_location_overwritten :
    (∀ (name : String) (r : GetDatabaseResponse),
      (OptionsMap.getVal (RESTCatalog.get_database name r).properties
        Catalog.DB_LOCATION_PROP).isSome = true) ∧
    (∀ (name : String) (r : GetDatabaseResponse),
      OptionsMap.lastVal r.audit Catalog.DB_LOCATION_PROP = none →
      OptionsMap.getVal (RESTCatalog.get_database name r).properties
          Catalog.DB_LOCATION_PROP = some r.location) := by
  constructor
  · intro name r
    rw [get_database_properties, OptionsMap.getVal_storeAll]
    cases hlv : OptionsMap.lastVal r.audit Catalog.DB_LOCATION_PROP with
    | some v => rfl
    | none =>
      show (OptionsMap.getVal
          (OptionsMap.store r.options Catalog.DB_LOCATION_PROP r.location)
          Catalog.DB_LOCATION_PROP).isSome = true
      rw [OptionsMap.getVal_store_self]
      rfl
  · intro name r haud
    have h2 : OptionsMap.getVal
        (OptionsMap.storeAll r.audit
          (OptionsMap.store r.options Catalog.DB_LOCATION_PROP r.location))
        Catalog.DB_LOCATION_PROP = some r.location := by
      rw [OptionsMap.getVal_storeAll, haud]
      exact OptionsMap.getVal_store_self _ _ _
    rw [get_database_properties]
    exact h2

/-- Claim C6 witness: the amended theorem applied at a concrete database
response with no audit pairs. -/
theorem C6_witness :
    OptionsMap.getVal (RESTCatalog.get_database "db" locationResponse).properties
        Catalog.DB_LOCATION_PROP = some "/new/location" :=
  C6_location_overwritten.2 "db" locationResponse rfl

/-- The fold of `reduce_step` keeps the invariant that every key in the
removal list is absent from the set map. -/
theorem reduce_foldl_disjoint (changes : List PropertyChange)
    (acc : OptionsMap × List String)
    (hacc : ∀ k, k ∈ acc.2 → OptionsMap.getVal acc.1 k = none) :
    ∀ k, k ∈ (List.foldl PropertyChange.reduce_step acc changes).2 →
      OptionsMap.getVal (List.foldl PropertyChange.reduce_step acc changes).1 k =
        none := by
  induction changes generalizing acc with
  | nil => exact hacc
  | cons c rest ih =>
    intro k hk
    refine ih (PropertyChange.reduce_step acc c) ?_ k hk
    intro k2 hk2
    cases c with
    | set_property key v =>
      simp only [PropertyChange.reduce_step] at hk2 ⊢
      rw [List.mem_filter] at hk2
      have hne : k2 ≠ key := by simpa using hk2.2
      rw [OptionsMap.getVal_store_ne _ _ _ _ hne]
      exact hacc k2 hk2.1
    | remove_property key =>
      simp only [PropertyChange.reduce_step, RemoveKeys.add] at hk2 ⊢
      by_cases hm : key ∈ acc.2
      · rw [if_pos hm] at hk2
        by_cases hkey : k2 = key
        · subst hkey
          exact OptionsMap.getVal_dropKey_self _ _
        · rw [OptionsMap.getVal_dropKey_ne _ _ _ hkey]
          exact hacc k2 hk2
      · rw [if_neg hm] at hk2
        rcases List.mem_append.mp hk2 with h | h
        · by_cases hkey : k2 = key
          · subst hkey
            exact OptionsMap.getVal_dropKey_self _ _
          · rw [OptionsMap.getVal_dropKey_ne _ _ _ hkey]
            exact hacc k2 h
        · have hkey : k2 = key := by simpa using h
          subst hkey
          exact OptionsMap.getVal_dropKey_self _ _

/-- Claim C7: the property-change reduction is a single left-to-right fold;
for every ordered sequence, the removal keys are disjoint from the keys of the
set map, a later change to a key overriding an earlier one regardless of
variant; the two spec examples reduce exactly as stated. -/
theorem C7_property_change_reduction :
    (∀ (changes : List PropertyChange) (k : String),
      k ∈ (PropertyChange.get_set_properties_to_remove_keys changes).2 →
      OptionsMap.getVal (PropertyChange.get_set_properties_to_remove_keys changes).1 k =
        none) ∧
    PropertyChange.get_set_properties_to_remove_keys
        [PropertyChange.set_property "a" "1", PropertyChange.remove_property "a",
          PropertyChange.set_property "b" "2"] =
      ([("b", "2")], ["a"]) ∧
    PropertyChange.get_set_properties_to_remove_keys
        [PropertyChange.remove_property "a", PropertyChange.set_property "a" "1"] =
      ([("a", "1")], []) := by
  refine ⟨?_, by decide, by decide⟩
  intro changes k hk
  exact reduce_foldl_disjoint changes ([], []) (fun k2 hk2 => by cases hk2) k hk

/-- Claim C7 witness: disjointness applied at a concrete change sequence. -/
theorem C7_witness :
    OptionsMap.getVal
        (PropertyChange.get_set_properties_to_remove_keys
          [PropertyChange.set_property "a" "1", PropertyChange.remove_property "a",
            PropertyChange.set_property "b" "2"]).1 "a" = none :=
  C7_property_change_reduction.1
    [PropertyChange.set_property "a" "1", PropertyChange.remove_property "a",
      PropertyChange.set_property "b" "2"] "a" (by decide)
